import Mathlib

/-!
Verification of the remote-runner-server agent (src/main.rs) against its
natural-language specification.

The development shallowly embeds the job-lifecycle state machine
(registry, spawn, completion notification) and the file-synchronization
protocol (hash-diff, push, pull) of `main.rs`.  Pure decision logic is
translated to Lean functions; the filesystem is an explicit map from
joined paths to byte lists; the interleaved behaviour of the `run`
completion task and the `wait_run` handler is modelled by explicit event
traces mirroring the statement order of the Rust source.
-/

/-- Job status, from `enum RunStatus` in main.rs (lines 23-28). -/
inductive RunStatus where
  | Running
  | Success
  | Fail
deriving DecidableEq, Repr

/-- A status is terminal when it is `Success` or `Fail`. -/
def RunStatus.isTerminal : RunStatus → Bool
  | .Running => false
  | .Success => true
  | .Fail => true

/-- Exit status of a child process, from the `subprocess` crate's
`ExitStatus` (`Exited(u32)`, `Signaled(u8)`, `Other(i32)`, `Undetermined`). -/
inductive ExitStatus where
  | Exited (code : Nat)
  | Signaled (sig : Nat)
  | Other (code : Int)
  | Undetermined
deriving DecidableEq, Repr

/-- `ExitStatus::success()` of the `subprocess` crate: true exactly for
`Exited(0)`. -/
def ExitStatus.success : ExitStatus → Bool
  | .Exited 0 => true
  | _ => false

/-- Outcome of attempting to spawn and await the child process inside the
blocking closure of `run` (main.rs lines 62-82): either `Popen::create`
fails, or the process runs to an exit status (obtained by `p.poll()` after
`p.wait()`). -/
inductive SpawnOutcome where
  | spawnError (msg : String)
  | completed (status : ExitStatus)
deriving DecidableEq, Repr

/-- The value returned by the blocking closure passed to
`tokio::task::spawn_blocking` in `run` (main.rs lines 62-82):
`bail!` on spawn failure, `bail!` on a non-success exit status,
`Ok(())` otherwise. -/
def blockingTask : SpawnOutcome → Except String Unit
  | .spawnError e => .error ("Error when starting process: " ++ e)
  | .completed st =>
    if st.success then .ok () else .error "Exit status"

/-- Result of `.await`-ing a `tokio` `JoinHandle`: `ok` carries the
closure's return value; `joinError` occurs only when the blocking task
panicked or was cancelled. -/
inductive JoinResult (α : Type) where
  | ok (val : α)
  | joinError
deriving DecidableEq, Repr

/-- The terminal status written into the registry by the completion task,
from `match res { Ok(_) => ... Success, Err(e) => ... Fail }` in main.rs
lines 85-94.  Note the source matches on the *outer* join result with a
wildcard `Ok(_)`, so the inner `anyhow::Result` value is discarded. -/
def completionStatus : JoinResult (Except String Unit) → RunStatus
  | .ok _ => .Success
  | .joinError => .Fail

/-- The job registry `runs: Arc<RwLock<HashMap<String, RunStatus>>>`
(main.rs line 32), modelled as a partial map from id to status. -/
def Registry : Type := String → Option RunStatus

/-- `HashMap::insert`: overwrite the binding for `k`. -/
def Registry.insert (reg : Registry) (k : String) (v : RunStatus) : Registry :=
  fun k2 => if k2 = k then some v else reg k2

/-- The empty registry (state at process start, main.rs line 195). -/
def Registry.empty : Registry := fun _ => none

/-- Outcome of the `wait_run` handler (main.rs lines 101-119):
`notFound` models the `Err(anyhow!("Run {id} not found"))` early return,
`answer` models `Ok("ok")` / `Ok("failed")`, and `pending` models a wait
still suspended on the broadcast channel when the modelled snapshot
sequence is exhausted. -/
inductive WaitResult where
  | notFound
  | answer (s : String)
  | pending
deriving DecidableEq, Repr

/-- The `wait_run` poll loop (main.rs lines 103-118) over a sequence of
registry snapshots, one per pass of the loop (each pass after the first
follows a `ch.recv().await`).  Returns the result together with the number
of `recv` suspensions performed. -/
def wait_run : List Registry → String → WaitResult × Nat
  | [], _ => (.pending, 0)
  | reg :: rest, id =>
    match reg id with
    | none => (.notFound, 0)
    | some .Success => (.answer "ok", 0)
    | some .Fail => (.answer "failed", 0)
    | some .Running =>
      let r := wait_run rest id
      (r.1, r.2 + 1)

/-- Observable actions of the job-lifecycle code, in source statement
order: subscribing to the broadcast channel, reading the registry under
the read lock, writing a status under the write lock, sending on the
broadcast channel, and suspending on `recv`. -/
inductive Event where
  | subscribe
  | registryRead
  | registryWrite (id : String) (st : RunStatus)
  | hubSend
  | recvAwait
deriving DecidableEq, Repr

/-- Recognizer for `Event.hubSend`. -/
def Event.isHubSend : Event → Bool
  | .hubSend => true
  | _ => false

/-- Recognizer for `Event.subscribe`. -/
def Event.isSubscribe : Event → Bool
  | .subscribe => true
  | _ => false

/-- Recognizer for `Event.registryRead`. -/
def Event.isRegistryRead : Event → Bool
  | .registryRead => true
  | _ => false

/-- Recognizer for registry writes. -/
def Event.isRegistryWrite : Event → Bool
  | .registryWrite _ _ => true
  | _ => false

/-- Event trace of the tail of the completion task in `run` (main.rs lines
85-95), in source order: first `state.runs.write().await.insert(uuid, st)`,
then `state.run_status_sender.send(())`. -/
def completionEvents (id : String) (res : JoinResult (Except String Unit)) :
    List Event :=
  [Event.registryWrite id (completionStatus res), Event.hubSend]

/-- Replay a registry write event onto a registry; other events leave the
registry unchanged. -/
def applyEvent (reg : Registry) : Event → Registry
  | .registryWrite id st => reg.insert id st
  | _ => reg

/-- Replay a trace of events onto a registry. -/
def applyEvents (reg : Registry) (es : List Event) : Registry :=
  es.foldl applyEvent reg

/-- Event trace of the `wait_run` loop body (main.rs lines 103-118): each
pass reads the registry; on `Running` it suspends on `recv` and loops. -/
def waitRunLoopEvents : List Registry → String → List Event
  | [], _ => []
  | reg :: rest, id =>
    Event.registryRead ::
      match reg id with
      | none => []
      | some .Success => []
      | some .Fail => []
      | some .Running => Event.recvAwait :: waitRunLoopEvents rest id

/-- Event trace of the whole `wait_run` handler (main.rs lines 101-119):
`let mut ch = state.run_status_sender.subscribe();` precedes the loop. -/
def waitRunEvents (snaps : List Registry) (id : String) : List Event :=
  Event.subscribe :: waitRunLoopEvents snaps id

/-- Rust `str::contains('~')` on the workdir: the character occurs in the
string (strings are modelled by their character sequence). -/
def containsTilde (w : String) : Bool := w.data.contains '~'

/-- Rust `str::starts_with('/')` on the workdir: the first character is a
slash. -/
def startsWithSlash (w : String) : Bool := w.data.head? == some '/'

/-- A `/run` request body (main.rs lines 37-41). -/
structure RunRequest where
  workdir : String
  cmd : List String

/-- The `run` handler's synchronous part (main.rs lines 43-53): the
request is rejected before any registry write when the workdir contains
a `~` or does not start with `/`; otherwise the fresh uuid is registered
as `Running`.  Returns the handler's reply and the registry afterwards;
the uuid (a v4 UUID in the source) is a parameter. -/
def run (reg : Registry) (uuid : String) (req : RunRequest) :
    Except String String × Registry :=
  if containsTilde req.workdir || !startsWithSlash req.workdir then
    (.error "Path math be absolute", reg)
  else
    (.ok uuid, reg.insert uuid .Running)

/-- Registry-write events produced for a single job by the `run` handler
and its completion task: the synchronous `insert(uuid, Running)` (main.rs
line 53) when validation passes, followed by the completion task's events
(main.rs lines 85-95). -/
def runEvents (uuid : String) (req : RunRequest)
    (res : JoinResult (Except String Unit)) : List Event :=
  if containsTilde req.workdir || !startsWithSlash req.workdir then []
  else Event.registryWrite uuid RunStatus.Running :: completionEvents uuid res

/-- The statuses written for job `uuid`, in order, by a trace of events. -/
def statusWrites (uuid : String) (events : List Event) : List RunStatus :=
  events.filterMap fun e =>
    match e with
    | .registryWrite id st => if id = uuid then some st else none
    | _ => none

/-- Allowed status transition: `Running` may move anywhere; a terminal
status may only repeat itself. -/
def statusLe : RunStatus → RunStatus → Bool
  | .Running, _ => true
  | .Success, .Success => true
  | .Fail, .Fail => true
  | _, _ => false

/-- `PathBuf::join` on string paths: an absolute right operand replaces
the base, otherwise the components are joined with a separator. -/
def pathJoin (base p : String) : String :=
  if p.startsWith "/" then p else base ++ "/" ++ p

/-- The local filesystem visible to the sync handlers: a partial map from
(joined) paths to regular-file contents as byte values. -/
def FileSystem : Type := String → Option (List Nat)

/-- Write a file (create or overwrite), as `std::fs::write`. -/
def FileSystem.write (fs : FileSystem) (path : String) (bytes : List Nat) :
    FileSystem :=
  fun q => if q = path then some bytes else fs q

/-- The empty filesystem (no regular files). -/
def FileSystem.empty : FileSystem := fun _ => none

/-- Sextet-to-character table of the standard Base64 alphabet used by
`base64ct::Base64` (padded, standard alphabet): `A..Z`, `a..z`, `0..9`,
`+`, `/`. -/
def encodeSextet (n : Nat) : Char :=
  if n < 26 then Char.ofNat (n + 65)
  else if n < 52 then Char.ofNat (n + 71)
  else if n < 62 then Char.ofNat (n - 4)
  else if n = 62 then '+'
  else '/'

/-- Character-to-sextet table of the standard Base64 alphabet (strict
decoding as in `base64ct`): characters outside the alphabet are
rejected. -/
def decodeSextet (c : Char) : Option Nat :=
  let n := c.toNat
  if 65 ≤ n && n ≤ 90 then some (n - 65)
  else if 97 ≤ n && n ≤ 122 then some (n - 71)
  else if 48 ≤ n && n ≤ 57 then some (n + 4)
  else if n = 43 then some 62
  else if n = 47 then some 63
  else none

/-- Is this the Base64 padding character `=`? -/
def isPad (c : Char) : Bool := c == '='

/-- `base64ct::Base64::encode_string` on a byte list: 3-byte groups become
4 alphabet characters; a 2-byte remainder becomes 3 characters and one
`=`; a 1-byte remainder becomes 2 characters and two `=`. -/
def base64EncodeCore : List Nat → List Char
  | a :: b :: c :: rest =>
    encodeSextet (a / 4) :: encodeSextet (a % 4 * 16 + b / 16) ::
      encodeSextet (b % 16 * 4 + c / 64) :: encodeSextet (c % 64) ::
      base64EncodeCore rest
  | [a, b] =>
    [encodeSextet (a / 4), encodeSextet (a % 4 * 16 + b / 16),
      encodeSextet (b % 16 * 4), '=']
  | [a] =>
    [encodeSextet (a / 4), encodeSextet (a % 4 * 16), '=', '=']
  | [] => []

/-- `base64ct::Base64::decode_vec` on a character list (strict, padded
Base64): the length must be a multiple of 4, padding may appear only in
the final group, and the unused low bits of the last sextet before the
padding must be zero. -/
def base64DecodeCore : List Char → Option (List Nat)
  | [] => some []
  | c1 :: c2 :: c3 :: c4 :: rest =>
    match decodeSextet c1, decodeSextet c2 with
    | some s1, some s2 =>
      if isPad c3 && isPad c4 && rest.isEmpty then
        if s2 % 16 = 0 then some [s1 * 4 + s2 / 16] else none
      else if isPad c4 && rest.isEmpty then
        match decodeSextet c3 with
        | some s3 =>
          if s3 % 4 = 0 then
            some [s1 * 4 + s2 / 16, s2 % 16 * 16 + s3 / 4]
          else none
        | none => none
      else
        match decodeSextet c3, decodeSextet c4, base64DecodeCore rest with
        | some s3, some s4, some tail =>
          some ((s1 * 4 + s2 / 16) :: (s2 % 16 * 16 + s3 / 4) ::
            (s3 % 4 * 64 + s4) :: tail)
        | _, _, _ => none
    | _, _ => none
  | _ => none

/-- `base64ct::Base64::encode_string` producing a `String`. -/
def base64EncodeString (bytes : List Nat) : String :=
  String.mk (base64EncodeCore bytes)

/-- `base64ct::Base64::decode_vec` consuming a `String`. -/
def base64DecodeString (s : String) : Option (List Nat) :=
  base64DecodeCore s.data

/-- The `offer_files` handler (main.rs lines 127-142), parameterized by
the content-fingerprint function `hashFn` (the source uses the md5 crate:
`base16ct::lower::encode_string(&Md5::digest(bytes))`, an external
library).  For each requested `(filename, expected)` pair: if the file
exists at `workdir/filename` and its fingerprint equals `expected`, the
filename is skipped; otherwise it is pushed onto the result. -/
def offer_files (fs : FileSystem) (hashFn : List Nat → String)
    (workdir : String) : List (String × String) → List String
  | [] => []
  | (filename, expected) :: rest =>
    match fs (pathJoin workdir filename) with
    | some bytes =>
      if expected = hashFn bytes then offer_files fs hashFn workdir rest
      else filename :: offer_files fs hashFn workdir rest
    | none => filename :: offer_files fs hashFn workdir rest

/-- One entry of a `send_files` request (main.rs lines 144-149). -/
structure FileInfo where
  data : String
  executable : Bool := false

/-- The `send_files` handler (main.rs lines 157-168): for each file,
decode the Base64 payload and write it at `workdir/filename`.  The source
calls `.unwrap()` on the decode and on the write, so a decode failure
panics; `none` models that panic (no filesystem is returned and no
response is produced). -/
def send_files (fs : FileSystem) (workdir : String) :
    List (String × FileInfo) → Option FileSystem
  | [] => some fs
  | (filename, info) :: rest =>
    match base64DecodeString info.data with
    | some bytes =>
      send_files (fs.write (pathJoin workdir filename) bytes) workdir rest
    | none => none

/-- The `get_file` handler (main.rs lines 176-181): read
`workdir/path` and return its Base64-encoded contents.  The source calls
`std::fs::read(&path).unwrap()`, so a missing file panics; `none` models
that panic (no response body is produced for the caller). -/
def get_file (fs : FileSystem) (workdir path : String) : Option String :=
  match fs (pathJoin workdir path) with
  | some bytes => some (base64EncodeString bytes)
  | none => none

/-- Decoding inverts encoding on a single sextet. -/
theorem decodeSextet_encodeSextet : ∀ n < 64, decodeSextet (encodeSextet n) = some n := by
  decide

/-- Alphabet characters are never the padding character. -/
theorem isPad_encodeSextet : ∀ n < 64, isPad (encodeSextet n) = false := by
  decide

/-- Strict Base64 decoding inverts encoding on any byte list. -/
theorem base64_decode_encode (l : List Nat) :
    (∀ b ∈ l, b < 256) → base64DecodeCore (base64EncodeCore l) = some l := by
  induction l using base64EncodeCore.induct with
  | case1 a b c rest ih =>
    intro h
    have ha : a < 256 := h a (by simp)
    have hb : b < 256 := h b (by simp)
    have hc : c < 256 := h c (by simp)
    have h1 : a / 4 < 64 := by omega
    have h2 : a % 4 * 16 + b / 16 < 64 := by omega
    have h3 : b % 16 * 4 + c / 64 < 64 := by omega
    have h4 : c % 64 < 64 := by omega
    rw [base64EncodeCore, base64DecodeCore]
    rw [decodeSextet_encodeSextet _ h1, decodeSextet_encodeSextet _ h2]
    simp only [isPad_encodeSextet _ h3, isPad_encodeSextet _ h4, Bool.false_and,
      Bool.and_false]
    simp only [if_neg (by simp : ¬ (false = true))]
    rw [decodeSextet_encodeSextet _ h3, decodeSextet_encodeSextet _ h4]
    rw [ih (fun x hx => h x (by simp [hx]))]
    have e1 : a / 4 * 4 + (a % 4 * 16 + b / 16) / 16 = a := by omega
    have e2 : (a % 4 * 16 + b / 16) % 16 * 16 + (b % 16 * 4 + c / 64) / 4 = b := by omega
    have e3 : (b % 16 * 4 + c / 64) % 4 * 64 + c % 64 = c := by omega
    dsimp only
    rw [e1, e2, e3]
  | case2 a b =>
    intro h
    have ha : a < 256 := h a (by simp)
    have hb : b < 256 := h b (by simp)
    have h1 : a / 4 < 64 := by omega
    have h2 : a % 4 * 16 + b / 16 < 64 := by omega
    have h3 : b % 16 * 4 < 64 := by omega
    rw [base64EncodeCore, base64DecodeCore]
    rw [decodeSextet_encodeSextet _ h1, decodeSextet_encodeSextet _ h2]
    simp only [isPad_encodeSextet _ h3, Bool.false_and]
    simp only [if_neg (by simp : ¬ (false = true))]
    have hpad : isPad '=' = true := by decide
    simp only [hpad, Bool.true_and, List.isEmpty_nil, if_pos rfl]
    rw [decodeSextet_encodeSextet _ h3]
    have hm : b % 16 * 4 % 4 = 0 := by omega
    have e1 : a / 4 * 4 + (a % 4 * 16 + b / 16) / 16 = a := by omega
    have e2 : (a % 4 * 16 + b / 16) % 16 * 16 + b % 16 * 4 / 4 = b := by omega
    simp [hm, e1, e2]
    omega
  | case3 a =>
    intro h
    have ha : a < 256 := h a (by simp)
    have h1 : a / 4 < 64 := by omega
    have h2 : a % 4 * 16 < 64 := by omega
    rw [base64EncodeCore, base64DecodeCore]
    rw [decodeSextet_encodeSextet _ h1, decodeSextet_encodeSextet _ h2]
    have hpad : isPad '=' = true := by decide
    simp only [hpad, Bool.true_and, List.isEmpty_nil, if_pos rfl]
    have hm : a % 4 * 16 % 16 = 0 := by omega
    have e1 : a / 4 * 4 + a % 4 * 16 / 16 = a := by omega
    simp [hm, e1]
    omega
  | case4 =>
    intro _
    rfl

/-- String-level version of the Base64 round trip. -/
theorem base64DecodeString_encodeString (l : List Nat) (h : ∀ b ∈ l, b < 256) :
    base64DecodeString (base64EncodeString l) = some l :=
  base64_decode_encode l h

/-- The skip condition of `offer_files` for one entry: the file exists and
its fingerprint equals the expected value (main.rs lines 132-137). -/
def fileMatches (fs : FileSystem) (hashFn : List Nat → String)
    (workdir f expected : String) : Prop :=
  ∃ bytes, fs (pathJoin workdir f) = some bytes ∧ expected = hashFn bytes

/-- Membership in the `offer_files` result: a filename is included exactly
when some requested entry for it fails the skip condition. -/
theorem offer_files_mem (fs : FileSystem) (hashFn : List Nat → String)
    (workdir : String) (hashes : List (String × String)) (f : String) :
    f ∈ offer_files fs hashFn workdir hashes ↔
      ∃ e, (f, e) ∈ hashes ∧ ¬ fileMatches fs hashFn workdir f e := by
  induction hashes with
  | nil => simp [offer_files]
  | cons p rest ih =>
    obtain ⟨g, exp⟩ := p
    rw [offer_files]
    cases hfs : fs (pathJoin workdir g) with
    | some bytes =>
      by_cases hh : exp = hashFn bytes
      · simp only [if_pos hh, ih]
        constructor
        · rintro ⟨e, he, hnm⟩
          exact ⟨e, List.mem_cons_of_mem _ he, hnm⟩
        · rintro ⟨e, he, hnm⟩
          rcases List.mem_cons.mp he with heq | hin
          · rcases Prod.mk.injEq f e g exp ▸ heq with ⟨rfl, rfl⟩
            exact absurd ⟨bytes, hfs, hh⟩ hnm
          · exact ⟨e, hin, hnm⟩
      · simp only [if_neg hh, List.mem_cons]
        constructor
        · rintro (rfl | hrec)
          · refine ⟨exp, Or.inl rfl, ?_⟩
            rintro ⟨bytes2, hb2, he2⟩
            rw [hfs] at hb2
            obtain rfl : bytes = bytes2 := Option.some.inj hb2
            exact hh he2
          · obtain ⟨e, he, hnm⟩ := ih.mp hrec
            exact ⟨e, Or.inr he, hnm⟩
        · rintro ⟨e, he, hnm⟩
          rcases he with heq | hin
          · rcases Prod.mk.injEq f e g exp ▸ heq with ⟨rfl, rfl⟩
            exact Or.inl rfl
          · exact Or.inr (ih.mpr ⟨e, hin, hnm⟩)
    | none =>
      simp only [List.mem_cons]
      constructor
      · rintro (rfl | hrec)
        · refine ⟨exp, Or.inl rfl, ?_⟩
          rintro ⟨bytes2, hb2, _⟩
          rw [hfs] at hb2
          exact Option.noConfusion hb2
        · obtain ⟨e, he, hnm⟩ := ih.mp hrec
          exact ⟨e, Or.inr he, hnm⟩
      · rintro ⟨e, he, hnm⟩
        rcases he with heq | hin
        · rcases Prod.mk.injEq f e g exp ▸ heq with ⟨rfl, rfl⟩
          exact Or.inl rfl
        · exact Or.inr (ih.mpr ⟨e, hin, hnm⟩)

/-- The `offer_files` result is a sublist of the requested filenames in
iteration order. -/
theorem offer_files_sublist (fs : FileSystem) (hashFn : List Nat → String)
    (workdir : String) (hashes : List (String × String)) :
    List.Sublist (offer_files fs hashFn workdir hashes) (hashes.map Prod.fst) := by
  induction hashes with
  | nil => simp [offer_files]
  | cons p rest ih =>
    obtain ⟨g, exp⟩ := p
    rw [offer_files]
    cases fs (pathJoin workdir g) with
    | some bytes =>
      by_cases hh : exp = hashFn bytes
      · simpa [hh] using ih.cons g
      · simpa [hh] using ih.cons₂ g
    | none => simpa using ih.cons₂ g

/-- When no requested path exists, every requested filename is returned. -/
theorem offer_files_all_missing (fs : FileSystem) (hashFn : List Nat → String)
    (workdir : String) (hashes : List (String × String))
    (hmiss : ∀ g, fs (pathJoin workdir g) = none) :
    offer_files fs hashFn workdir hashes = hashes.map Prod.fst := by
  induction hashes with
  | nil => rfl
  | cons p rest ih =>
    obtain ⟨g, exp⟩ := p
    rw [offer_files, hmiss g, ih]
    rfl

/-- When every requested entry matches, the result is empty. -/
theorem offer_files_all_match (fs : FileSystem) (hashFn : List Nat → String)
    (workdir : String) (hashes : List (String × String))
    (hall : ∀ g e, (g, e) ∈ hashes → fileMatches fs hashFn workdir g e) :
    offer_files fs hashFn workdir hashes = [] := by
  induction hashes with
  | nil => rfl
  | cons p rest ih =>
    obtain ⟨g, exp⟩ := p
    obtain ⟨bytes, hb, he⟩ := hall g exp (List.mem_cons_self _ _)
    rw [offer_files, hb]
    dsimp only
    rw [if_pos he]
    exact ih fun g2 e2 h2 => hall g2 e2 (List.mem_cons_of_mem _ h2)

/-- In a pair list whose keys are distinct (a `HashMap` in the source), a
key determines its value. -/
theorem keyUnique {α β : Type} (l : List (α × β)) (hnd : (l.map Prod.fst).Nodup)
    {a : α} {b1 b2 : β} (h1 : (a, b1) ∈ l) (h2 : (a, b2) ∈ l) : b1 = b2 := by
  induction l with
  | nil => cases h1
  | cons p rest ih =>
    obtain ⟨g, e⟩ := p
    simp only [List.map_cons, List.nodup_cons] at hnd
    rcases List.mem_cons.mp h1 with heq1 | hin1
    · injection heq1 with ha1 hb1
      subst ha1
      rcases List.mem_cons.mp h2 with heq2 | hin2
      · injection heq2 with ha2 hb2
        rw [hb1, hb2]
      · exact absurd (List.mem_map_of_mem Prod.fst hin2) hnd.1
    · rcases List.mem_cons.mp h2 with heq2 | hin2
      · injection heq2 with ha2 hb2
        subst ha2
        exact absurd (List.mem_map_of_mem Prod.fst hin1) hnd.1
      · exact ih hnd.2 hin1 hin2


/-- C1: the claim states exit code 0 leads to the success indicator and
any other exit condition to the failure indicator.  The source contradicts
the second half: in main.rs line 85 the completion task matches the
*outer* join result with `Ok(_)`, which also covers `Ok(Err(..))`, so a
nonzero exit (and even a spawn failure) is recorded as `Success` and a
subsequent wait answers "ok".  This theorem evaluates the embedded code at
exit code 1: the blocking closure correctly produces an error, yet the
recorded status is `Success`, the wait answers "ok", and in fact any
non-panicking completion is recorded as `Success`. -/
theorem run_nonzero_exit_reported_ok :
    ExitStatus.success (ExitStatus.Exited 1) = false ∧
      blockingTask (SpawnOutcome.completed (ExitStatus.Exited 1)) =
        Except.error "Exit status" ∧
      completionStatus (JoinResult.ok
        (blockingTask (SpawnOutcome.completed (ExitStatus.Exited 1)))) =
        RunStatus.Success ∧
      completionStatus (JoinResult.ok
        (blockingTask (SpawnOutcome.spawnError "no such file"))) =
        RunStatus.Success ∧
      wait_run [Registry.insert Registry.empty "j" (completionStatus
        (JoinResult.ok (blockingTask (SpawnOutcome.completed
          (ExitStatus.Exited 1)))))] "j" = (WaitResult.answer "ok", 0) ∧
      (∀ inner : Except String Unit,
        completionStatus (JoinResult.ok inner) = RunStatus.Success) := by
  refine ⟨rfl, rfl, rfl, rfl, ?_, fun inner => rfl⟩
  rfl

/-- C2: the claim states `pull` on a missing file fails with a
`NotFoundError` returned to the caller.  The source instead calls
`std::fs::read(&path).unwrap()` (main.rs line 179), which panics on a
missing file; in the embedding `get_file` returns `none` (no response at
all) rather than an error response.  This theorem evaluates the handler
on an empty filesystem. -/
theorem get_file_missing_file_panics :
    get_file FileSystem.empty "/w" "data.txt" = none ∧
      (∀ workdir path, get_file FileSystem.empty workdir path = none) :=
  ⟨rfl, fun _ _ => rfl⟩

/-- C3: if the id is absent at the first registry read, `wait_run`
returns the not-found error immediately: zero `recv` suspensions, and the
event trace is just the subscribe followed by the single read. -/
theorem wait_run_unknown_id_notFound (reg : Registry) (rest : List Registry)
    (id : String) (h : reg id = none) :
    wait_run (reg :: rest) id = (WaitResult.notFound, 0) ∧
      waitRunEvents (reg :: rest) id = [Event.subscribe, Event.registryRead] := by
  constructor
  · rw [wait_run, h]
  · rw [waitRunEvents, waitRunLoopEvents, h]

/-- Witness for C3 at a concrete input: the empty registry and id "j". -/
theorem wait_run_unknown_id_notFound_witness :
    Registry.empty "j" = none ∧
      (wait_run [Registry.empty] "j" = (WaitResult.notFound, 0) ∧
        waitRunEvents [Registry.empty] "j" =
          [Event.subscribe, Event.registryRead]) :=
  ⟨rfl, wait_run_unknown_id_notFound Registry.empty [] "j" rfl⟩

/-- C4: in the completion task's trace the registry write of the terminal
status precedes the hub signal, and replaying the trace up to (excluding)
the hub signal onto any registry already shows the job's terminal
status. -/
theorem completion_write_before_signal (id : String)
    (res : JoinResult (Except String Unit)) (reg : Registry) :
    completionEvents id res =
        [Event.registryWrite id (completionStatus res), Event.hubSend] ∧
      (completionStatus res).isTerminal = true ∧
      List.findIdx Event.isRegistryWrite (completionEvents id res) <
        List.findIdx Event.isHubSend (completionEvents id res) ∧
      applyEvents reg ((completionEvents id res).takeWhile
        (fun e => !e.isHubSend)) id = some (completionStatus res) := by
  refine ⟨rfl, ?_, ?_, ?_⟩
  · cases res <;> rfl
  · simp [completionEvents, List.findIdx_cons, Event.isRegistryWrite,
      Event.isHubSend]
  · simp [completionEvents, List.takeWhile, Event.isHubSend,
      Event.isRegistryWrite, applyEvents, applyEvent, Registry.insert]

/-- C5: the `wait_run` trace begins with the broadcast subscription
(index 0), and every registry read of the poll loop comes strictly
later, for every snapshot sequence and id. -/
theorem wait_run_subscribes_before_first_read (snaps : List Registry)
    (id : String) :
    List.findIdx Event.isSubscribe (waitRunEvents snaps id) = 0 ∧
      0 < List.findIdx Event.isRegistryRead (waitRunEvents snaps id) := by
  constructor
  · rw [waitRunEvents]
    simp [List.findIdx_cons, Event.isSubscribe]
  · rw [waitRunEvents]
    simp [List.findIdx_cons, Event.isRegistryRead]

/-- C6: a requested filename is omitted from the diff result exactly when
the file exists at `workdir/filename` and its computed fingerprint equals
the expected value; over an empty directory every requested filename is
returned, and when every file matches the result is empty.  The key
uniqueness hypothesis models the request being a `HashMap`. -/
theorem offer_files_omitted_iff (fs : FileSystem) (hashFn : List Nat → String)
    (workdir : String) (hashes : List (String × String)) (f hsh : String)
    (hnd : (hashes.map Prod.fst).Nodup) (hmem : (f, hsh) ∈ hashes) :
    (f ∉ offer_files fs hashFn workdir hashes ↔
        fileMatches fs hashFn workdir f hsh) ∧
      ((∀ g, fs (pathJoin workdir g) = none) →
        offer_files fs hashFn workdir hashes = hashes.map Prod.fst) ∧
      ((∀ g e, (g, e) ∈ hashes → fileMatches fs hashFn workdir g e) →
        offer_files fs hashFn workdir hashes = []) := by
  refine ⟨?_, offer_files_all_missing fs hashFn workdir hashes,
    offer_files_all_match fs hashFn workdir hashes⟩
  constructor
  · intro hnin
    by_contra hnm
    exact hnin ((offer_files_mem fs hashFn workdir hashes f).mpr
      ⟨hsh, hmem, hnm⟩)
  · intro hm hin
    obtain ⟨e, he, hnm⟩ := (offer_files_mem fs hashFn workdir hashes f).mp hin
    exact hnm ((keyUnique hashes hnd he hmem).symm ▸ hm)

/-- Witness for C6 at a concrete input: two requested files over the
empty filesystem. -/
theorem offer_files_omitted_iff_witness :
    (((([("f1", "h1"), ("f2", "h2")] : List (String × String))).map
        Prod.fst).Nodup ∧
      (("f1", "h1") : String × String) ∈ [("f1", "h1"), ("f2", "h2")]) ∧
      (("f1" ∉ offer_files FileSystem.empty (fun _ => "") "/w"
            [("f1", "h1"), ("f2", "h2")] ↔
          fileMatches FileSystem.empty (fun _ => "") "/w" "f1" "h1") ∧
        ((∀ g, FileSystem.empty (pathJoin "/w" g) = none) →
          offer_files FileSystem.empty (fun _ => "") "/w"
              [("f1", "h1"), ("f2", "h2")] =
            ([("f1", "h1"), ("f2", "h2")] : List (String × String)).map
              Prod.fst) ∧
        ((∀ g e, ((g, e) : String × String) ∈ [("f1", "h1"), ("f2", "h2")] →
            fileMatches FileSystem.empty (fun _ => "") "/w" g e) →
          offer_files FileSystem.empty (fun _ => "") "/w"
            [("f1", "h1"), ("f2", "h2")] = [])) :=
  ⟨⟨by decide, by decide⟩,
    offer_files_omitted_iff FileSystem.empty (fun _ => "") "/w"
      [("f1", "h1"), ("f2", "h2")] "f1" "h1" (by decide) (by decide)⟩

/-- C7: pushing a payload and pulling it back round-trips: the push
decodes and writes exactly the client's bytes, the pull returns their
encoding, and decoding that yields the original bytes. -/
theorem push_pull_round_trip (fs : FileSystem) (workdir f : String)
    (ex : Bool) (bytes : List Nat) (h : ∀ b ∈ bytes, b < 256) :
    ∃ fs2,
      send_files fs workdir
          [(f, { data := base64EncodeString bytes, executable := ex })] =
        some fs2 ∧
      fs2 (pathJoin workdir f) = some bytes ∧
      get_file fs2 workdir f = some (base64EncodeString bytes) ∧
      base64DecodeString (base64EncodeString bytes) = some bytes := by
  have hd := base64DecodeString_encodeString bytes h
  refine ⟨fs.write (pathJoin workdir f) bytes, ?_, ?_, ?_, hd⟩
  · rw [send_files]
    dsimp only
    rw [hd]
    rfl
  · simp [FileSystem.write]
  · have hw : fs.write (pathJoin workdir f) bytes (pathJoin workdir f) =
        some bytes := by simp [FileSystem.write]
    rw [get_file, hw]

/-- Witness for C7 at a concrete input: the two bytes [104, 105]. -/
theorem push_pull_round_trip_witness :
    (∀ b ∈ [104, 105], b < 256) ∧
      ∃ fs2,
        send_files FileSystem.empty "/w"
            [("a.txt", FileInfo.mk (base64EncodeString [104, 105]) false)] =
          some fs2 ∧
        fs2 (pathJoin "/w" "a.txt") = some [104, 105] ∧
        get_file fs2 "/w" "a.txt" = some (base64EncodeString [104, 105]) ∧
        base64DecodeString (base64EncodeString [104, 105]) =
          some [104, 105] :=
  ⟨by decide, push_pull_round_trip FileSystem.empty "/w" "a.txt" false
    [104, 105] (by decide)⟩

/-- C8: over its whole lifecycle (the synchronous registration plus the
completion task) a job's registry writes are exactly `Running` followed by
one terminal status, and the write sequence only moves along the allowed
transition order (`Running` to terminal, never away from terminal). -/
theorem job_status_monotonic (uuid : String) (req : RunRequest)
    (res : JoinResult (Except String Unit))
    (h : (containsTilde req.workdir || !startsWithSlash req.workdir) = false) :
    statusWrites uuid (runEvents uuid req res) =
        [RunStatus.Running, completionStatus res] ∧
      (statusWrites uuid (runEvents uuid req res)).head? =
        some RunStatus.Running ∧
      (completionStatus res).isTerminal = true ∧
      List.Chain' (fun a b => statusLe a b = true)
        (statusWrites uuid (runEvents uuid req res)) := by
  have he : statusWrites uuid (runEvents uuid req res) =
      [RunStatus.Running, completionStatus res] := by
    rw [runEvents, if_neg (by simp [h])]
    simp [statusWrites, completionEvents]
  refine ⟨he, by rw [he]; rfl, by cases res <;> rfl, ?_⟩
  rw [he]
  cases res <;> simp [statusLe]

/-- Witness for C8 at a concrete input: a valid workdir and a successful
completion. -/
theorem job_status_monotonic_witness :
    (containsTilde "/tmp/x" || !startsWithSlash "/tmp/x") = false ∧
      (statusWrites "j" (runEvents "j" ⟨"/tmp/x", ["/bin/true"]⟩
          (JoinResult.ok (Except.ok ()))) =
        [RunStatus.Running, completionStatus (JoinResult.ok (Except.ok ()))] ∧
      (statusWrites "j" (runEvents "j" ⟨"/tmp/x", ["/bin/true"]⟩
          (JoinResult.ok (Except.ok ())))).head? =
        some RunStatus.Running ∧
      (completionStatus (JoinResult.ok (Except.ok ()))).isTerminal = true ∧
      List.Chain' (fun a b => statusLe a b = true)
        (statusWrites "j" (runEvents "j" ⟨"/tmp/x", ["/bin/true"]⟩
          (JoinResult.ok (Except.ok ()))))) :=
  ⟨by decide, job_status_monotonic "j" ⟨"/tmp/x", ["/bin/true"]⟩
    (JoinResult.ok (Except.ok ())) (by decide)⟩

/-- C9: a run request whose workdir contains `~` or is not absolute is
rejected with an error and the registry is left unchanged (no job entry
is created). -/
theorem run_invalid_workdir_rejected (reg : Registry) (uuid : String)
    (req : RunRequest)
    (h : containsTilde req.workdir = true ∨
      startsWithSlash req.workdir = false) :
    (run reg uuid req).1 = Except.error "Path math be absolute" ∧
      (run reg uuid req).2 = reg := by
  have hcond : (containsTilde req.workdir || !startsWithSlash req.workdir) =
      true := by
    rcases h with h | h <;> simp [h]
  rw [run, if_pos hcond]
  exact ⟨rfl, rfl⟩

/-- Witness for C9 at a concrete input: the relative workdir
"relative/path". -/
theorem run_invalid_workdir_rejected_witness :
    (containsTilde "relative/path" = true ∨
        startsWithSlash "relative/path" = false) ∧
      ((run Registry.empty "j" ⟨"relative/path", ["/bin/true"]⟩).1 =
          Except.error "Path math be absolute" ∧
        (run Registry.empty "j" ⟨"relative/path", ["/bin/true"]⟩).2 =
          Registry.empty) :=
  ⟨Or.inr (by decide), run_invalid_workdir_rejected Registry.empty "j"
    ⟨"relative/path", ["/bin/true"]⟩ (Or.inr (by decide))⟩

/-- C10: the diff result only contains requested filenames and contains
each at most once (it is a duplicate-free subset of the request's keys,
which are distinct because the request is a `HashMap`). -/
theorem offer_files_result_subset_nodup (fs : FileSystem)
    (hashFn : List Nat → String) (workdir : String)
    (hashes : List (String × String)) (hnd : (hashes.map Prod.fst).Nodup) :
    (∀ f ∈ offer_files fs hashFn workdir hashes, f ∈ hashes.map Prod.fst) ∧
      (offer_files fs hashFn workdir hashes).Nodup :=
  ⟨fun _ hf => (offer_files_sublist fs hashFn workdir hashes).subset hf,
    List.Nodup.sublist (offer_files_sublist fs hashFn workdir hashes) hnd⟩

/-- Witness for C10 at a concrete input: one requested file over the
empty filesystem. -/
theorem offer_files_result_subset_nodup_witness :
    ((([("a", "x")] : List (String × String))).map Prod.fst).Nodup ∧
      ((∀ f ∈ offer_files FileSystem.empty (fun _ => "") "/d" [("a", "x")],
          f ∈ ([("a", "x")] : List (String × String)).map Prod.fst) ∧
        (offer_files FileSystem.empty (fun _ => "") "/d" [("a", "x")]).Nodup) :=
  ⟨by decide, offer_files_result_subset_nodup FileSystem.empty (fun _ => "")
    "/d" [("a", "x")] (by decide)⟩
